import Mathlib

/-!
Verification of the retention engine of `limpieza.py` (bontivero/limpieza_ficheros).

The definitions below are a shallow embedding of the Python source:

* `fnmatch` models `fnmatch.fnmatch` for the glob features the configuration
  uses (`*`, `?`, literal characters), case-sensitive.
* `FSTree` / `osWalkFiles` model a local directory tree and the file
  enumeration performed by `os.walk` (top-down: the files of a directory,
  then each subdirectory recursively; `os.walk` on a missing root silently
  yields nothing because its `onerror` argument defaults to `None`).
* `eliminarArchivosLocales` models the function of the same name
  (limpieza.py lines 218-269) on an error-free filesystem: the OS-error
  branches (`os.path.getmtime` / `os.remove` raising) are out of scope, so
  the returned error count is the contribution of the control flow itself.
* `SNode` / `procEntriesCode` model the SFTP traversal
  `procesar_directorio_sftp` (lines 443-481), including its
  directory-detection idiom: `try: sftp.listdir(p); <recurse> except:
  <treat p as a file>`.  A `listable := false` directory models a directory
  whose listing fails (e.g. permission denied); `sftp.remove` on a
  directory fails at protocol level, which the source counts as a per-entry
  error.
* The SSH, FTP and orchestrator models follow the corresponding functions
  (`eliminar_archivos_ssh`, `procesar_directorio_ftp`, `procesar_conexion`,
  `eliminar_archivos_antiguos`), with the remote world supplied as explicit
  data (per-rule probe outcome, `find` output, listings, `MDTM` replies).
-/

namespace Limpieza

/-- Glob matching on character lists: `*` matches any (possibly empty)
sequence, `?` matches one character, anything else matches literally.
Models `fnmatch.fnmatch` (case-sensitive form) for the pattern features the
configuration format documents. -/
def globMatch : List Char → List Char → Bool
  | [], [] => true
  | '*' :: ps, [] => globMatch ps []
  | '*' :: ps, c :: cs => globMatch ps (c :: cs) || globMatch ('*' :: ps) cs
  | '?' :: ps, _ :: cs => globMatch ps cs
  | p :: ps, c :: cs => p = c && globMatch ps cs
  | _ :: _, [] => false
  | [], _ :: _ => false
termination_by ps cs => (ps.length, cs.length)

/-- String-level wrapper for `globMatch`; `fnmatch name pat` is
`fnmatch.fnmatch(name, pat)`. -/
def fnmatch (name pat : String) : Bool :=
  globMatch pat.toList name.toList

/-- The mask test applied by every backend: no mask accepts every name,
a mask accepts the names it glob-matches (`if mascara and not
fnmatch.fnmatch(file, mascara): continue`). -/
def maskOk (mascara : Option String) (name : String) : Bool :=
  match mascara with
  | none => true
  | some m => fnmatch name m

/-- A local filesystem entry: a file with a name and a modification time
(seconds, as compared by the source), or a directory with children. -/
inductive FSTree where
  | file (name : String) (mtime : Int)
  | dir (name : String) (children : List FSTree)
deriving Repr

/-- One file reached by the traversal: its full path (as joined by
`os.path.join(root, file)`), its base name and its modification time. -/
structure LocalEntry where
  path : String
  name : String
  mtime : Int
deriving Repr, DecidableEq

/-- The files directly inside a directory, in listing order, with full
paths rooted at `root`. -/
def filesAt (root : String) : List FSTree → List LocalEntry
  | [] => []
  | .file n t :: es => { path := root ++ "/" ++ n, name := n, mtime := t } :: filesAt root es
  | .dir _ _ :: es => filesAt root es

/-- The files reached by descending into each subdirectory of the given
entry list, in order; models the recursive part of `os.walk` (top-down). -/
def walkDirs (root : String) : List FSTree → List LocalEntry
  | [] => []
  | .file _ _ :: es => walkDirs root es
  | .dir n cs :: es =>
      (filesAt (root ++ "/" ++ n) cs ++ walkDirs (root ++ "/" ++ n) cs) ++ walkDirs root es

/-- All files yielded by `os.walk(base)` in visiting order.  `none` models
a base path that does not exist: `os.walk` with the default
`onerror=None` swallows the `scandir` error and yields nothing. -/
def osWalkFiles (base : String) : Option (List FSTree) → List LocalEntry
  | none => []
  | some cs => filesAt base cs ++ walkDirs base cs

/-- The deletion test of `eliminar_archivos_locales`: the mask accepts the
base name and `mtime < limite_tiempo`. -/
def localPred (limite : Int) (mascara : Option String) (e : LocalEntry) : Bool :=
  maskOk mascara e.name && decide (e.mtime < limite)

/-- Model of `eliminar_archivos_locales(ruta_base, dias, mascara)` on an
error-free filesystem at time `now`: `limite_tiempo = now - dias*86400`,
and each walked file whose name passes the mask and whose mtime is strictly
below the limit is removed.  Returns the removed entries (in traversal
order) and the error count, which is `0` on the error-free filesystem
(the source only increments it on OS errors). -/
def eliminarArchivosLocales (now : Int) (base : String) (fs : Option (List FSTree))
    (dias : Nat) (mascara : Option String) : List LocalEntry × Nat :=
  let limite : Int := now - (dias : Int) * 86400
  ((osWalkFiles base fs).filter (localPred limite mascara), 0)

/-- The filesystem state left behind by a deletion run: every file whose
name and mtime satisfy `p` has been removed by `os.remove`; directories
are untouched. -/
def removeFilesL (p : String → Int → Bool) : List FSTree → List FSTree
  | [] => []
  | .file n t :: es => if p n t then removeFilesL p es else .file n t :: removeFilesL p es
  | .dir n cs :: es => .dir n (removeFilesL p cs) :: removeFilesL p es

/-- A full local run: the result of `eliminar_archivos_locales` together
with the filesystem state it leaves behind. -/
def runLocalState (now : Int) (base : String) (fs : Option (List FSTree))
    (dias : Nat) (mascara : Option String) :
    (List LocalEntry × Nat) × Option (List FSTree) :=
  let limite : Int := now - (dias : Int) * 86400
  (eliminarArchivosLocales now base fs dias mascara,
   fs.map (removeFilesL (fun n t => maskOk mascara n && decide (t < limite))))

/-- A remote SFTP entry as seen through `listdir_attr`: a file or a
directory, with the modification time `st_mtime` of its attributes.  For a
directory, `listable` records whether `sftp.listdir` on it succeeds
(a directory whose listing fails, e.g. for permissions, has
`listable := false`); files are never listable. -/
inductive SNode where
  | file (name : String) (mtime : Int)
  | dir (name : String) (mtime : Int) (listable : Bool) (children : List SNode)
deriving Repr

/-- Name of an SFTP entry (`atributo.filename`). -/
def sftpName : SNode → String
  | .file n _ => n
  | .dir n _ _ _ => n

/-- Path join used by the SFTP traversal:
`f"{ruta_remota}/{atributo.filename}".replace('//', '/')`. -/
def joinSftp (ruta n : String) : String :=
  ((ruta ++ "/") ++ n).replace "//" "/"

/-- Model of the body of `procesar_directorio_sftp` iterating over
`sftp.listdir_attr(ruta)` (limpieza.py lines 450-477): entries named `.` or
`..` are skipped; for each other entry the source tries
`sftp.listdir(full)` and recurses on success, otherwise it treats the
entry as a file: mask test on the name, then if `st_mtime < limite` it
calls `sftp.remove(full)`.  `sftp.remove` on a directory fails at the
protocol level, so an unlistable directory that passes mask and age is
counted as one per-entry error.  Returns (removed paths, error count). -/
def procEntriesCode (limite : Int) (mascara : Option String) (ruta : String) :
    List SNode → List String × Nat
  | [] => ([], 0)
  | e :: rest =>
    let n := sftpName e
    let full := joinSftp ruta n
    let head : List String × Nat :=
      if n = "." ∨ n = ".." then ([], 0)
      else
        match e with
        | .dir _ _ true cs => procEntriesCode limite mascara full cs
        | .dir _ mt false _ =>
            if maskOk mascara n then
              if mt < limite then ([], 1) else ([], 0)
            else ([], 0)
        | .file _ mt =>
            if maskOk mascara n then
              if mt < limite then ([full], 0) else ([], 0)
            else ([], 0)
    let tail := procEntriesCode limite mascara ruta rest
    (head.1 ++ tail.1, head.2 + tail.2)

/-- Modelled from the spec: the traversal §4.1/§9 prescribe for the SFTP
backend — entry type read from the listing attributes, recursion exactly
into directory-typed entries, and a listing failure for a subdirectory
counted as a single error with the subtree abandoned (§4.2).  Used only to
compare against `procEntriesCode`. -/
def procEntriesSpecDesign (limite : Int) (mascara : Option String) (ruta : String) :
    List SNode → List String × Nat
  | [] => ([], 0)
  | e :: rest =>
    let n := sftpName e
    let full := joinSftp ruta n
    let head : List String × Nat :=
      if n = "." ∨ n = ".." then ([], 0)
      else
        match e with
        | .dir _ _ listable cs =>
            if listable then procEntriesSpecDesign limite mascara full cs
            else ([], 1)
        | .file _ mt =>
            if maskOk mascara n then
              if mt < limite then ([full], 0) else ([], 0)
            else ([], 0)
    let tail := procEntriesSpecDesign limite mascara ruta rest
    (head.1 ++ tail.1, head.2 + tail.2)

/-- Every directory in the forest (recursively) has a successful listing. -/
def allListable : List SNode → Bool
  | [] => true
  | .file _ _ :: rest => allListable rest
  | .dir _ _ l cs :: rest => l && allListable cs && allListable rest

/-- Full paths of all entries of the forest, in traversal order; used to
express that the traversal touches each remote path at most once. -/
def allSftpPaths (ruta : String) : List SNode → List String
  | [] => []
  | e :: rest =>
    let full := joinSftp ruta (sftpName e)
    (full :: (match e with
              | .dir _ _ _ cs => allSftpPaths full cs
              | .file _ _ => [])) ++ allSftpPaths ruta rest

/-- Full paths of the file-typed entries of the forest that pass the mask
and are strictly older than the limit: the entries eligible for deletion
under the source's own test. -/
def sftpEligiblePaths (limite : Int) (mascara : Option String) (ruta : String) :
    List SNode → List String
  | [] => []
  | e :: rest =>
    let full := joinSftp ruta (sftpName e)
    (match e with
     | .dir _ _ _ cs => sftpEligiblePaths limite mascara full cs
     | .file n mt =>
         if n ≠ "." ∧ n ≠ ".." ∧ maskOk mascara n = true ∧ mt < limite then [full] else [])
    ++ sftpEligiblePaths limite mascara ruta rest

/-- One retention rule as read from the configuration: `ruta`, `dias`
(`maxAgeDays`, a non-negative integer) and the optional `mascara`. -/
structure RutaConfig where
  ruta : String
  dias : Nat
  mascara : Option String
deriving Repr, DecidableEq

/-- The single-quote character used by the SSH commands, as a string. -/
def sq : String := "\x27"

/-- The remote world one rule runs against, supplied as explicit data:
`localFs` is the local directory tree under the rule's path (`none` if the
path does not exist); `probeOk` is whether the SSH probe `ls ruta` exits
with status 0; `findOut` is the stdout of the SSH `find` command;
`rmFails` are the remote paths whose `rm` exits non-zero; `sftpRoot` is the
SFTP listing of the rule's path (`none` if `sftp.listdir(ruta)` raises);
`ftpCwdOk` is whether `ftp.cwd(ruta)` succeeds; `ftpListings` maps a path
to the lines of `LIST path` (a missing path models `retrlines` raising);
`ftpMdtm` maps a path to the mtime parsed from a `213` reply to
`MDTM path` (a missing path models `error_perm`, which the source only
logs as a warning). -/
structure RutaWorld where
  localFs : Option (List FSTree) := none
  probeOk : Bool := true
  findOut : String := ""
  rmFails : List String := []
  sftpRoot : Option (List SNode) := none
  ftpCwdOk : Bool := true
  ftpListings : List (String × List String) := []
  ftpMdtm : List (String × Int) := []

/-- A well-formed rule: its configuration and its remote world. -/
structure RuleEntry where
  cfg : RutaConfig
  world : RutaWorld

/-- A connection as handed to `procesar_conexion`: its `tipo` string, the
outcome of authentication/initial connect, the `necesita_sudo` flag and
its ordered rules.  A `none` rule models a malformed rule dict whose field
access raises `KeyError`, which escapes the per-rule loop. -/
structure Conexion where
  tipo : String
  authOk : Bool := true
  necesitaSudo : Bool := false
  rutas : List (Option RuleEntry)

/-- What processing one connection produces: the two counters the source
returns and, for observability, the list of issued shell commands and the
session lifecycle facts. -/
structure ConnOut where
  eliminados : Nat
  errores : Nat
  commands : List String
  sessionOpened : Bool
  sessionClosed : Bool
deriving Repr, DecidableEq

/-- Helper for `splitNl`: accumulate the current field (reversed) and emit
it at each newline and at the end. -/
def splitNlGo : List Char → List Char → List String
  | acc, [] => [String.mk acc.reverse]
  | acc, '\n' :: cs => String.mk acc.reverse :: splitNlGo [] cs
  | acc, c :: cs => splitNlGo (c :: acc) cs

/-- Python's `s.split('\n')`: split at every newline keeping empty fields
(so the empty string gives one empty field). -/
def splitNl (s : String) : List String :=
  splitNlGo [] s.toList

/-- Python's `s.strip()`: drop leading and trailing whitespace. -/
def pyStrip (s : String) : String :=
  String.mk ((s.toList.dropWhile Char.isWhitespace).reverse.dropWhile
    Char.isWhitespace).reverse

/-- The paths the SSH backend will delete, parsed from the `find` output
exactly as the source does: `salida.split('\n')`, keep the lines that are
non-empty after `strip()`, and delete the stripped line. -/
def parseFindOut (salida : String) : List String :=
  ((splitNl salida).filter (fun a => pyStrip a ≠ "")).map (fun a => pyStrip a)

/-- The `find` command issued for one rule (limpieza.py lines 351-354):
with a mask, `find ruta -type f -name 'mascara' -mtime +dias -print`;
without, the same minus the `-name` test; `sudoStr` is the optional
privilege prefix. -/
def findCmd (sudoStr : String) (rc : RutaConfig) : String :=
  match rc.mascara with
  | some m =>
      sudoStr ++ "find " ++ rc.ruta ++ " -type f -name " ++ sq ++ m ++ sq ++
        " -mtime +" ++ toString rc.dias ++ " -print"
  | none =>
      sudoStr ++ "find " ++ rc.ruta ++ " -type f -mtime +" ++ toString rc.dias ++ " -print"

/-- Model of the per-rule body of `eliminar_archivos_ssh` (lines 333-401):
issue the probe `ls ruta`; on non-zero status count one error and skip the
rule; otherwise issue the `find` command, then one `rm -f 'path'` per
parsed output line, counting a deletion per zero-status `rm` and an error
per non-zero one.  All commands carry the `sudoStr ` prefix exactly when the
connection's flag is set. -/
def sshRule (sudoStr : String) (e : RuleEntry) : Nat × Nat × List String :=
  let test := sudoStr ++ "ls " ++ e.cfg.ruta
  if e.world.probeOk then
    let cf := findCmd sudoStr e.cfg
    let archivos := parseFindOut e.world.findOut
    let rms := archivos.map (fun a => sudoStr ++ "rm -f " ++ sq ++ a ++ sq)
    let ok := (archivos.filter (fun a => a ∉ e.world.rmFails)).length
    let bad := (archivos.filter (fun a => a ∈ e.world.rmFails)).length
    (ok, bad, test :: cf :: rms)
  else
    (0, 1, [test])

/-- The SSH per-rule loop over `conexion['rutas']`: a malformed rule dict
(`none`) raises out of the loop, so the entries after it are not
processed and the abort flag is set; counters and commands of the entries
before it are kept.  Returns (removed, errors, commands, aborted). -/
def sshRulesLoop (sudoStr : String) : List (Option RuleEntry) → Nat × Nat × List String × Bool
  | [] => (0, 0, [], false)
  | none :: _ => (0, 0, [], true)
  | some e :: rest =>
    let r := sshRule sudoStr e
    let t := sshRulesLoop sudoStr rest
    (r.1 + t.1, r.2.1 + t.2.1, r.2.2 ++ t.2.2.1, t.2.2.2)

/-- Model of `eliminar_archivos_ssh` (lines 300-415).  If authentication
fails, no session is opened and the handler charges one error per rule.
Otherwise the session is open and the rules run; `cliente_ssh.close()` is
the last statement of the `try` block, so it only runs when no exception
escaped the loop — on an abort the `except Exception` handler adds
`len(conexion['rutas'])` to the error total and returns with the session
still open. -/
def eliminarArchivosSsh (c : Conexion) : ConnOut :=
  let sudoStr := if c.necesitaSudo then "sudo " else ""
  if c.authOk then
    let r := sshRulesLoop sudoStr c.rutas
    if r.2.2.2 then
      { eliminados := r.1, errores := r.2.1 + c.rutas.length, commands := r.2.2.1,
        sessionOpened := true, sessionClosed := false }
    else
      { eliminados := r.1, errores := r.2.1, commands := r.2.2.1,
        sessionOpened := true, sessionClosed := true }
  else
    { eliminados := 0, errores := c.rutas.length, commands := [],
      sessionOpened := false, sessionClosed := false }

/-- One SFTP rule (lines 483-512): `sftp.listdir(ruta)` raising means the
path is unreachable — one error, nothing attempted; otherwise the
recursive traversal runs.  Returns (removed count, error count). -/
def sftpRuleRun (now : Int) (e : RuleEntry) : Nat × Nat :=
  match e.world.sftpRoot with
  | none => (0, 1)
  | some cs =>
      let r := procEntriesCode (now - (e.cfg.dias : Int) * 86400) e.cfg.mascara e.cfg.ruta cs
      (r.1.length, r.2)

/-- The SFTP per-rule loop, with the same malformed-rule abort behaviour
as the SSH loop.  Returns (removed, errors, aborted). -/
def sftpRulesLoop (now : Int) : List (Option RuleEntry) → Nat × Nat × Bool
  | [] => (0, 0, false)
  | none :: _ => (0, 0, true)
  | some e :: rest =>
    let r := sftpRuleRun now e
    let t := sftpRulesLoop now rest
    (r.1 + t.1, r.2 + t.2.1, t.2.2)

/-- Model of `eliminar_archivos_sftp` (lines 417-524): same session
lifecycle as the SSH variant — `sftp.close(); transporte.close()` are the
last statements of the `try` block, so an exception escaping the rule loop
leaves the session open while the handler adds one error per rule. -/
def eliminarArchivosSftp (now : Int) (c : Conexion) : ConnOut :=
  if c.authOk then
    let r := sftpRulesLoop now c.rutas
    if r.2.2 then
      { eliminados := r.1, errores := r.2.1 + c.rutas.length, commands := [],
        sessionOpened := true, sessionClosed := false }
    else
      { eliminados := r.1, errores := r.2.1, commands := [],
        sessionOpened := true, sessionClosed := true }
  else
    { eliminados := 0, errores := c.rutas.length, commands := [],
      sessionOpened := false, sessionClosed := false }

/-- Helper for `pySplitWs`: accumulate the current word (reversed), closing
it at each whitespace run. -/
def splitWsGo : List Char → List Char → List String
  | word, [] => if word.isEmpty then [] else [String.mk word.reverse]
  | word, c :: cs =>
      if Char.isWhitespace c then
        if word.isEmpty then splitWsGo [] cs
        else String.mk word.reverse :: splitWsGo [] cs
      else splitWsGo (c :: word) cs

/-- Whitespace split as performed by Python's `linea.split()`: split on
runs of whitespace and drop empty fields. -/
def pySplitWs (s : String) : List String :=
  splitWsGo [] s.toList

/-- Model of the body of `procesar_directorio_ftp` (limpieza.py lines
546-594) processing the lines returned by `LIST path`.  A line whose
whitespace split has fewer than 9 fields is skipped by `continue` — no
counter is touched.  Otherwise the name is the 9th-onward fields joined by
single spaces; `.` and `..` are skipped; a line starting with `d` recurses
into the joined path (relative to the rule's directory, the empty path
standing for the rule root after `ftp.cwd`); other lines are files: mask
test, then `MDTM`, and on a `213` reply with `mtime < limite` the file is
deleted.  A missing `MDTM` entry models `error_perm`, which the source
logs as a warning without counting an error.  `fuel` bounds the directory
recursion depth, which the source leaves unbounded; every theorem below
holds for an arbitrary fuel.  Returns (deleted count, error count). -/
def procFtpLines (listings : List (String × List String)) (mdtm : List (String × Int))
    (limite : Int) (mascara : Option String) :
    Nat → String → List String → Nat × Nat
  | _, _, [] => (0, 0)
  | fuel, path, linea :: rest =>
    let tail := procFtpLines listings mdtm limite mascara fuel path rest
    let partes := pySplitWs linea
    let head : Nat × Nat :=
      if partes.length < 9 then (0, 0)
      else
        let nombre := String.intercalate " " (partes.drop 8)
        if nombre = "." ∨ nombre = ".." then (0, 0)
        else
          let full := if path = "" then nombre else path ++ "/" ++ nombre
          if linea.startsWith "d" then
            match fuel with
            | 0 => (0, 0)
            | f + 1 =>
              match listings.lookup full with
              | none => (0, 1)
              | some lines => procFtpLines listings mdtm limite mascara f full lines
          else if maskOk mascara nombre then
            match mdtm.lookup full with
            | some mt => if mt < limite then (1, 0) else (0, 0)
            | none => (0, 0)
          else (0, 0)
    (head.1 + tail.1, head.2 + tail.2)
termination_by fuel _ ls => (fuel, ls.length)

/-- Entry into one FTP directory: `ftp.retrlines('LIST path', ...)`, whose
failure (no listing for the path) the source counts as one error for the
subtree. -/
def procFtpDir (listings : List (String × List String)) (mdtm : List (String × Int))
    (limite : Int) (mascara : Option String) (fuel : Nat) (path : String) : Nat × Nat :=
  match listings.lookup path with
  | none => (0, 1)
  | some lines => procFtpLines listings mdtm limite mascara fuel path lines

/-- One FTP rule (lines 596-623): `ftp.cwd(ruta)` failing is one error and
nothing is attempted; otherwise the traversal starts at the empty relative
path.  The fuel is one more than the number of listed paths, which covers
any acyclic world. -/
def ftpRuleRun (now : Int) (e : RuleEntry) : Nat × Nat :=
  if e.world.ftpCwdOk then
    procFtpDir e.world.ftpListings e.world.ftpMdtm
      (now - (e.cfg.dias : Int) * 86400) e.cfg.mascara
      (e.world.ftpListings.length + 1) ""
  else (0, 1)

/-- The FTP per-rule loop, with the malformed-rule abort behaviour shared
by all remote backends.  Returns (removed, errors, aborted). -/
def ftpRulesLoop (now : Int) : List (Option RuleEntry) → Nat × Nat × Bool
  | [] => (0, 0, false)
  | none :: _ => (0, 0, true)
  | some e :: rest =>
    let r := ftpRuleRun now e
    let t := ftpRulesLoop now rest
    (r.1 + t.1, r.2 + t.2.1, t.2.2)

/-- Model of `eliminar_archivos_ftp` (lines 526-634): a failed
connect/login charges one error per rule; an exception escaping the rule
loop reaches the handler, which adds one error per rule and returns
without `ftp.quit()`. -/
def eliminarArchivosFtp (now : Int) (c : Conexion) : ConnOut :=
  if c.authOk then
    let r := ftpRulesLoop now c.rutas
    if r.2.2 then
      { eliminados := r.1, errores := r.2.1 + c.rutas.length, commands := [],
        sessionOpened := true, sessionClosed := false }
    else
      { eliminados := r.1, errores := r.2.1, commands := [],
        sessionOpened := true, sessionClosed := true }
  else
    { eliminados := 0, errores := c.rutas.length, commands := [],
      sessionOpened := false, sessionClosed := false }

/-- The local branch of `procesar_conexion` (lines 650-674): each rule is
handed to `eliminar_archivos_locales` and the counters are summed; a
malformed rule dict raises out of the loop.  Returns
(removed, errors, aborted). -/
def localRulesLoop (now : Int) : List (Option RuleEntry) → Nat × Nat × Bool
  | [] => (0, 0, false)
  | none :: _ => (0, 0, true)
  | some e :: rest =>
    let r := eliminarArchivosLocales now e.cfg.ruta e.world.localFs e.cfg.dias e.cfg.mascara
    let t := localRulesLoop now rest
    (r.1.length + t.1, r.2 + t.2.1, t.2.2)

/-- Model of `procesar_conexion` (lines 636-691): dispatch on the `tipo`
string; an unknown `tipo`, or an exception escaping the local branch, is
answered with `(0, len(conexion['rutas']))`.  Returns the
(removed, errors) pair the source returns. -/
def procesarConexion (now : Int) (c : Conexion) : Nat × Nat :=
  if c.tipo = "local" then
    let r := localRulesLoop now c.rutas
    if r.2.2 then (0, c.rutas.length) else (r.1, r.2.1)
  else if c.tipo = "ssh" then
    let r := eliminarArchivosSsh c
    (r.eliminados, r.errores)
  else if c.tipo = "sftp" then
    let r := eliminarArchivosSftp now c
    (r.eliminados, r.errores)
  else if c.tipo = "ftp" then
    let r := eliminarArchivosFtp now c
    (r.eliminados, r.errores)
  else
    (0, c.rutas.length)

/-- The connection loop of `eliminar_archivos_antiguos` (lines 736-744):
every connection is processed in order and the two counters are summed;
`procesar_conexion` never raises, so one connection's outcome cannot stop
the loop. -/
def runConexiones (now : Int) : List Conexion → Nat × Nat
  | [] => (0, 0)
  | c :: rest =>
    let r := procesarConexion now c
    let t := runConexiones now rest
    (r.1 + t.1, r.2 + t.2)

/-- Sample rule with an empty world, used by concrete instances. -/
def reglaSimple : RuleEntry :=
  { cfg := { ruta := "/a", dias := 1, mascara := none }, world := {} }

/-- Sample SSH connection with one well-formed rule. -/
def conexionSshBuena : Conexion :=
  { tipo := "ssh", rutas := [some reglaSimple] }

/-- Sample SSH connection whose authentication fails. -/
def conexionSshAuthFail : Conexion :=
  { tipo := "ssh", authOk := false, rutas := [some reglaSimple] }

/-- Sample local rule over a directory holding one stale file. -/
def reglaLocalVieja : RuleEntry :=
  { cfg := { ruta := "/t", dias := 0, mascara := none },
    world := { localFs := some [FSTree.file "x" (-1)] } }

/-- Sample local connection with one rule. -/
def conexionLocal : Conexion :=
  { tipo := "local", rutas := [some reglaLocalVieja] }

/-- Sample SSH rule whose find output returns one path. -/
def reglaSshFind : RuleEntry :=
  { cfg := { ruta := "/var/log", dias := 7, mascara := none },
    world := { findOut := "/var/log/a.log\n" } }

/-! ### Lemmas about the local traversal -/

/-- Removing the files that satisfy `p` filters them out of a directory's
file listing. -/
lemma filesAt_removeFilesL (p : String → Int → Bool) (root : String) :
    ∀ cs : List FSTree,
      filesAt root (removeFilesL p cs) =
        (filesAt root cs).filter (fun e => !(p e.name e.mtime))
  | [] => by simp [removeFilesL, filesAt]
  | .file n t :: es => by
      by_cases h : p n t <;>
        simp [removeFilesL, filesAt, h, filesAt_removeFilesL p root es]
  | .dir n cs :: es => by
      simp [removeFilesL, filesAt, filesAt_removeFilesL p root es]

/-- Removing the files that satisfy `p` filters them out of the recursive
walk. -/
lemma walkDirs_removeFilesL (p : String → Int → Bool) :
    ∀ (root : String) (cs : List FSTree),
      walkDirs root (removeFilesL p cs) =
        (walkDirs root cs).filter (fun e => !(p e.name e.mtime))
  | _, [] => by simp [removeFilesL, walkDirs]
  | root, .file n t :: es => by
      by_cases h : p n t <;>
        simp [removeFilesL, walkDirs, h, walkDirs_removeFilesL p root es]
  | root, .dir n cs :: es => by
      simp [removeFilesL, walkDirs, filesAt_removeFilesL,
        walkDirs_removeFilesL p (root ++ "/" ++ n) cs,
        walkDirs_removeFilesL p root es]

/-- After one local run, no remaining walked file passes the run's own
deletion test. -/
lemma osWalkFiles_after_run (p : String → Int → Bool) (base : String)
    (fs : Option (List FSTree)) :
    osWalkFiles base (fs.map (removeFilesL p)) =
      (osWalkFiles base fs).filter (fun e => !(p e.name e.mtime)) := by
  cases fs with
  | none => simp [osWalkFiles]
  | some cs =>
      simp [osWalkFiles, Option.map, filesAt_removeFilesL, walkDirs_removeFilesL,
        List.filter_append]

/-! ### Lemmas about the SFTP traversal -/

/-- Every path the SFTP traversal deletes belongs, in order, to the
eligible paths: file-typed entries passing mask and age. -/
lemma procEntriesCode_sublist_eligible (limite : Int) (mascara : Option String) :
    ∀ (ruta : String) (cs : List SNode),
      List.Sublist (procEntriesCode limite mascara ruta cs).1
        (sftpEligiblePaths limite mascara ruta cs)
  | _, [] => by simp [procEntriesCode, sftpEligiblePaths]
  | ruta, .file n mt :: rest => by
      have ih := procEntriesCode_sublist_eligible limite mascara ruta rest
      by_cases h1 : n = "." ∨ n = ".."
      · rcases h1 with h | h <;> simp [procEntriesCode, sftpEligiblePaths, sftpName, h, ih]
      · push_neg at h1
        obtain ⟨ha, hb⟩ := h1
        by_cases h2 : maskOk mascara n = true
        · by_cases h3 : mt < limite
          · simpa [procEntriesCode, sftpEligiblePaths, sftpName, ha, hb, h2, h3] using
              List.Sublist.cons₂ (joinSftp ruta n) ih
          · simp [procEntriesCode, sftpEligiblePaths, sftpName, ha, hb, h2, h3, ih]
        · simp [procEntriesCode, sftpEligiblePaths, sftpName, ha, hb, h2, ih]
  | ruta, .dir n mt true cs :: rest => by
      have ih1 := procEntriesCode_sublist_eligible limite mascara (joinSftp ruta n) cs
      have ih2 := procEntriesCode_sublist_eligible limite mascara ruta rest
      by_cases h1 : n = "." ∨ n = ".." <;>
        simp [procEntriesCode, sftpEligiblePaths, sftpName, h1] <;>
        first
          | exact List.Sublist.append ih1 ih2
          | exact List.Sublist.append (List.nil_sublist _) ih2
  | ruta, .dir n mt false cs :: rest => by
      have ih := procEntriesCode_sublist_eligible limite mascara ruta rest
      by_cases h1 : n = "." ∨ n = ".." <;>
        by_cases h2 : maskOk mascara n = true <;>
        by_cases h3 : mt < limite <;>
        simp [procEntriesCode, sftpEligiblePaths, sftpName, h1, h2, h3] <;>
        exact List.Sublist.append (List.nil_sublist _) ih

/-- The eligible paths are among all remote paths, in traversal order. -/
lemma sftpEligible_sublist_all (limite : Int) (mascara : Option String) :
    ∀ (ruta : String) (cs : List SNode),
      List.Sublist (sftpEligiblePaths limite mascara ruta cs) (allSftpPaths ruta cs)
  | _, [] => by simp [sftpEligiblePaths, allSftpPaths]
  | ruta, .file n mt :: rest => by
      have ih := sftpEligible_sublist_all limite mascara ruta rest
      by_cases hc : n ≠ "." ∧ n ≠ ".." ∧ maskOk mascara n = true ∧ mt < limite
      · simpa [sftpEligiblePaths, allSftpPaths, sftpName, hc] using
          List.Sublist.cons₂ (joinSftp ruta n) ih
      · simpa [sftpEligiblePaths, allSftpPaths, sftpName, hc] using
          List.Sublist.cons (joinSftp ruta n) ih
  | ruta, .dir n mt l cs :: rest => by
      have ih1 := sftpEligible_sublist_all limite mascara (joinSftp ruta n) cs
      have ih2 := sftpEligible_sublist_all limite mascara ruta rest
      simpa [sftpEligiblePaths, allSftpPaths, sftpName] using
        List.Sublist.append (List.Sublist.cons (joinSftp ruta n) ih1) ih2

/-- When every directory of the forest can be listed, the source's
directory-detection idiom (recurse where `listdir` succeeds) coincides
with the attribute-typed traversal of the design. -/
lemma procEntriesCode_eq_specDesign (limite : Int) (mascara : Option String) :
    ∀ (ruta : String) (cs : List SNode), allListable cs = true →
      procEntriesCode limite mascara ruta cs =
        procEntriesSpecDesign limite mascara ruta cs
  | _, [], _ => by simp [procEntriesCode, procEntriesSpecDesign]
  | ruta, .file n mt :: rest, h => by
      have hrest : allListable rest = true := by simpa [allListable] using h
      simp [procEntriesCode, procEntriesSpecDesign,
        procEntriesCode_eq_specDesign limite mascara ruta rest hrest]
  | ruta, .dir n mt l cs :: rest, h => by
      have hl : l = true ∧ allListable cs = true ∧ allListable rest = true := by
        simpa [allListable, Bool.and_eq_true, and_assoc] using h
      obtain ⟨hl1, hl2, hl3⟩ := hl
      subst hl1
      simp [procEntriesCode, procEntriesSpecDesign, sftpName,
        procEntriesCode_eq_specDesign limite mascara (joinSftp ruta n) cs hl2,
        procEntriesCode_eq_specDesign limite mascara ruta rest hl3]

/-! ### Lemmas about the per-rule loops and the session lifecycle -/

/-- A rule list with no malformed entry never aborts the SSH loop. -/
lemma sshRulesLoop_noAbort (s : String) :
    ∀ rutas : List (Option RuleEntry), (∀ r ∈ rutas, r.isSome) →
      (sshRulesLoop s rutas).2.2.2 = false
  | [], _ => by simp [sshRulesLoop]
  | none :: rest, h => by simpa using h none (by simp)
  | some e :: rest, h => by
      have := sshRulesLoop_noAbort s rest (fun r hr => h r (by simp [hr]))
      simp [sshRulesLoop, this]

/-- A rule list with no malformed entry never aborts the SFTP loop. -/
lemma sftpRulesLoop_noAbort (now : Int) :
    ∀ rutas : List (Option RuleEntry), (∀ r ∈ rutas, r.isSome) →
      (sftpRulesLoop now rutas).2.2 = false
  | [], _ => by simp [sftpRulesLoop]
  | none :: rest, h => by simpa using h none (by simp)
  | some e :: rest, h => by
      have := sftpRulesLoop_noAbort now rest (fun r hr => h r (by simp [hr]))
      simp [sftpRulesLoop, this]

/-- Over well-formed rules the SSH loop issues the concatenation of the
per-rule command lists and does not abort. -/
lemma sshRulesLoop_map_some (s : String) :
    ∀ es : List RuleEntry,
      (sshRulesLoop s (es.map some)).2.2.1 = (es.map (fun e => (sshRule s e).2.2)).flatten ∧
      (sshRulesLoop s (es.map some)).2.2.2 = false
  | [] => by simp [sshRulesLoop]
  | e :: rest => by
      have ih := sshRulesLoop_map_some s rest
      simp [sshRulesLoop, ih.1, ih.2]

/-- Filtering by `p` after keeping only the elements that fail `p` leaves
nothing. -/
lemma filter_not_filter {α : Type} (p : α → Bool) :
    ∀ l : List α, (l.filter (fun a => !(p a))).filter p = []
  | [] => by simp
  | a :: l => by
      by_cases h : p a = true <;> simp [h, filter_not_filter p l]

/-! ### Claim theorems -/

/-- C1 counterexample: a rule with `maxAgeDays = 0` and no name pattern
does not delete every file under its path.  The walk reaches the single
file (mtime equal to `now = 0`), the claim marks it unconditionally, yet
the run deletes nothing, because the source tests `mtime < now - 0*86400`
strictly. -/
theorem C1_counterexample :
    osWalkFiles "/b" (some [FSTree.file "a" 0]) =
      [{ path := "/b/a", name := "a", mtime := 0 }] ∧
    (eliminarArchivosLocales 0 "/b" (some [FSTree.file "a" 0]) 0 none).1 = [] := by
  refine ⟨?_, ?_⟩ <;>
    simp [osWalkFiles, filesAt, walkDirs, eliminarArchivosLocales, localPred, maskOk]

/-- C1 (amended): a file entry reached by the local traversal is deleted
iff its name passes the mask and `mtime < now - maxAgeDays*86400` — the
age must strictly exceed the threshold, uniformly for `maxAgeDays ≥ 0`,
with no unconditional case at `maxAgeDays = 0`; the SFTP traversal deletes
only paths of file entries passing the same strict test (the SSH backend
delegates selection to the remote `find -mtime +dias`). -/
theorem C1_thm :
    (∀ (now : Int) (base : String) (fs : Option (List FSTree)) (dias : Nat)
        (mascara : Option String) (e : LocalEntry), e ∈ osWalkFiles base fs →
        (e ∈ (eliminarArchivosLocales now base fs dias mascara).1 ↔
          maskOk mascara e.name = true ∧ e.mtime < now - (dias : Int) * 86400)) ∧
    (∀ (limite : Int) (mascara : Option String) (ruta : String) (cs : List SNode)
        (p : String), p ∈ (procEntriesCode limite mascara ruta cs).1 →
        p ∈ sftpEligiblePaths limite mascara ruta cs) := by
  constructor
  · intro now base fs dias mascara e he
    simp [eliminarArchivosLocales, List.mem_filter, he, localPred]
  · intro limite mascara ruta cs p hp
    exact (procEntriesCode_sublist_eligible limite mascara ruta cs).subset hp

/-- Witness for C1: a file one second older than a one-day threshold is
deleted by the local run, and a concrete SFTP deletion lands among the
eligible paths. -/
theorem C1_witness :
    ({ path := "/b/old", name := "old", mtime := -86401 } : LocalEntry) ∈
      (eliminarArchivosLocales 0 "/b" (some [FSTree.file "old" (-86401)]) 1 none).1 ∧
    joinSftp "/r" "f" ∈ sftpEligiblePaths 0 none "/r" [SNode.file "f" (-5)] := by
  constructor
  · exact (C1_thm.1 0 "/b" (some [FSTree.file "old" (-86401)]) 1 none
      { path := "/b/old", name := "old", mtime := -86401 }
      (by simp [osWalkFiles, filesAt, walkDirs])).mpr
      (by refine ⟨by simp [maskOk], by decide⟩)
  · exact C1_thm.2 0 none "/r" [SNode.file "f" (-5)] (joinSftp "/r" "f")
      (by simp [procEntriesCode, sftpName, maskOk])

/-- C2 counterexample: on the local backend a rule whose path does not
exist yields zero errors, not exactly one — `os.walk` with the default
`onerror=None` silently yields nothing, so neither counter moves. -/
theorem C2_counterexample :
    eliminarArchivosLocales 0 "/no/existe" none 5 none = ([], 0) := by
  simp [eliminarArchivosLocales, osWalkFiles]

/-- C2 (amended): a rule whose path is unreachable performs zero deletions
on every backend and records exactly one error on the ssh, sftp and ftp
backends, while the local backend records zero errors (its walk silently
yields nothing); the rule's outcome composes with the rest of the loop, so
the other rules are unaffected. -/
theorem C2_thm :
    (∀ (now : Int) (base : String) (dias : Nat) (mascara : Option String),
        eliminarArchivosLocales now base none dias mascara = ([], 0)) ∧
    (∀ (s : String) (e : RuleEntry), e.world.probeOk = false →
        sshRule s e = (0, 1, [s ++ "ls " ++ e.cfg.ruta])) ∧
    (∀ (now : Int) (e : RuleEntry), e.world.sftpRoot = none →
        sftpRuleRun now e = (0, 1)) ∧
    (∀ (now : Int) (e : RuleEntry), e.world.ftpCwdOk = false →
        ftpRuleRun now e = (0, 1)) ∧
    (∀ (s : String) (e : RuleEntry) (rest : List (Option RuleEntry)),
        e.world.probeOk = false →
        (sshRulesLoop s (some e :: rest)).1 = (sshRulesLoop s rest).1 ∧
        (sshRulesLoop s (some e :: rest)).2.1 = 1 + (sshRulesLoop s rest).2.1) := by
  refine ⟨?_, ?_, ?_, ?_, ?_⟩
  · intro now base dias mascara
    simp [eliminarArchivosLocales, osWalkFiles]
  · intro s e h
    simp [sshRule, h]
  · intro now e h
    simp [sftpRuleRun, h]
  · intro now e h
    simp [ftpRuleRun, h]
  · intro s e rest h
    constructor <;> simp [sshRulesLoop, sshRule, h]

/-- Witness for C2: a concrete SSH rule whose probe fails contributes one
error, no deletion and only the probe command. -/
theorem C2_witness :
    sshRule "" { cfg := { ruta := "/datos", dias := 3, mascara := none },
                 world := { probeOk := false } } = (0, 1, ["ls /datos"]) := by
  have h := C2_thm.2.1 "" { cfg := { ruta := "/datos", dias := 3, mascara := none },
                            world := { probeOk := false } } rfl
  simpa using h

/-- C9 (confirmed): re-running a rule on the filesystem state left by a
completed run of that rule, with the clock unchanged, deletes nothing —
every file that passed the mask-and-age test was removed, and the
survivors fail it by construction. -/
theorem C9_thm (now : Int) (base : String) (fs : Option (List FSTree)) (dias : Nat)
    (mascara : Option String) :
    (eliminarArchivosLocales now base (runLocalState now base fs dias mascara).2
        dias mascara).1 = [] := by
  simp only [runLocalState, eliminarArchivosLocales]
  rw [osWalkFiles_after_run]
  exact filter_not_filter (localPred (now - (dias : Int) * 86400) mascara) _

/-- C10 (confirmed): a connection whose `tipo` is none of the four known
backends reaches the final `else` of `procesar_conexion`, performing no
backend operation: it returns zero removals and one error per configured
rule, for any world the rules carry. -/
theorem C10_thm (now : Int) (c : Conexion) (h1 : c.tipo ≠ "local") (h2 : c.tipo ≠ "ssh")
    (h3 : c.tipo ≠ "sftp") (h4 : c.tipo ≠ "ftp") :
    procesarConexion now c = (0, c.rutas.length) := by
  simp [procesarConexion, h1, h2, h3, h4]

/-- Witness for C10: a connection of kind `smb` with two rules yields
zero removals and two errors. -/
theorem C10_witness :
    procesarConexion 0 { tipo := "smb",
                         rutas := [some { cfg := { ruta := "/a", dias := 1, mascara := none },
                                          world := {} },
                                   some { cfg := { ruta := "/b", dias := 2, mascara := none },
                                          world := {} }] }
      = (0, 2) := by
  have h := C10_thm 0 { tipo := "smb",
                        rutas := [some { cfg := { ruta := "/a", dias := 1, mascara := none },
                                         world := {} },
                                  some { cfg := { ruta := "/b", dias := 2, mascara := none },
                                         world := {} }] }
    (by decide) (by decide) (by decide) (by decide)
  simpa using h

/-- The SSH command list for a rule whose probe succeeds, with the find
shape spelled out. -/
lemma sshRule_cmds (s : String) (e : RuleEntry) (h : e.world.probeOk = true) :
    (sshRule s e).2.2 =
      (s ++ "ls " ++ e.cfg.ruta) ::
      (match e.cfg.mascara with
       | some m => s ++ "find " ++ e.cfg.ruta ++ " -type f -name " ++ sq ++ m ++ sq ++
           " -mtime +" ++ toString e.cfg.dias ++ " -print"
       | none => s ++ "find " ++ e.cfg.ruta ++ " -type f -mtime +" ++
           toString e.cfg.dias ++ " -print") ::
      (parseFindOut e.world.findOut).map (fun a => s ++ "rm -f " ++ sq ++ a ++ sq) := by
  cases hm : e.cfg.mascara <;> simp [sshRule, h, findCmd, hm]

/-- C3 counterexample: a connection whose session opens and whose rule
list contains one malformed rule dict terminates with the session still
open — the `KeyError` escapes the loop to the `except` handler, which
returns without `close()`. -/
theorem C3_counterexample :
    (eliminarArchivosSsh { tipo := "ssh", rutas := [none] }).sessionOpened = true ∧
    (eliminarArchivosSsh { tipo := "ssh", rutas := [none] }).sessionClosed = false := by
  constructor <;> simp [eliminarArchivosSsh, sshRulesLoop]

/-- C3 (amended): on the Shell and SFTP backends the session is closed
exactly once on the normal exit path — whenever authentication succeeded
and no exception escapes the per-rule loop (in particular whenever every
rule dict is well formed) — but an exception escaping the loop reaches the
`except` handler, which records the errors and returns without closing,
leaving the session open. -/
theorem C3_thm (now : Int) (c : Conexion) (hauth : c.authOk = true)
    (hwf : ∀ r ∈ c.rutas, r.isSome) :
    ((eliminarArchivosSsh c).sessionOpened = true ∧
      (eliminarArchivosSsh c).sessionClosed = true) ∧
    ((eliminarArchivosSftp now c).sessionOpened = true ∧
      (eliminarArchivosSftp now c).sessionClosed = true) := by
  have h1 := sshRulesLoop_noAbort (if c.necesitaSudo then "sudo " else "") c.rutas hwf
  have h2 := sftpRulesLoop_noAbort now c.rutas hwf
  refine ⟨⟨?_, ?_⟩, ⟨?_, ?_⟩⟩ <;>
    simp [eliminarArchivosSsh, eliminarArchivosSftp, hauth, h1, h2]

/-- Witness for C3: a concrete one-rule connection closes its SSH and SFTP
sessions. -/
theorem C3_witness :
    (eliminarArchivosSsh conexionSshBuena).sessionClosed = true ∧
    (eliminarArchivosSftp 0 conexionSshBuena).sessionClosed = true := by
  have h := C3_thm 0 conexionSshBuena rfl
    (by simp [conexionSshBuena])
  exact ⟨h.1.2, h.2.2⟩

/-- C4 (confirmed): a deleted local file passed the mask and the strict
age test; the deleted local paths are free of duplicates whenever the
walked paths are; an SFTP-deleted path is one of the eligible file paths
(mask passed, strictly older than the limit); and under distinct remote
paths, the SFTP traversal deletes each path at most once. -/
theorem C4_thm :
    (∀ (now : Int) (base : String) (fs : Option (List FSTree)) (dias : Nat)
        (mascara : Option String) (e : LocalEntry),
        e ∈ (eliminarArchivosLocales now base fs dias mascara).1 →
        maskOk mascara e.name = true ∧ e.mtime < now - (dias : Int) * 86400) ∧
    (∀ (now : Int) (base : String) (fs : Option (List FSTree)) (dias : Nat)
        (mascara : Option String),
        ((osWalkFiles base fs).map LocalEntry.path).Nodup →
        ((eliminarArchivosLocales now base fs dias mascara).1.map LocalEntry.path).Nodup) ∧
    (∀ (limite : Int) (mascara : Option String) (ruta : String) (cs : List SNode)
        (p : String), p ∈ (procEntriesCode limite mascara ruta cs).1 →
        p ∈ sftpEligiblePaths limite mascara ruta cs) ∧
    (∀ (limite : Int) (mascara : Option String) (ruta : String) (cs : List SNode),
        (allSftpPaths ruta cs).Nodup → (procEntriesCode limite mascara ruta cs).1.Nodup) := by
  refine ⟨?_, ?_, ?_, ?_⟩
  · intro now base fs dias mascara e he
    simp only [eliminarArchivosLocales, List.mem_filter, localPred, Bool.and_eq_true,
      decide_eq_true_eq] at he
    exact he.2
  · intro now base fs dias mascara h
    exact ((List.filter_sublist _).map LocalEntry.path).nodup h
  · intro limite mascara ruta cs p hp
    exact (procEntriesCode_sublist_eligible limite mascara ruta cs).subset hp
  · intro limite mascara ruta cs h
    exact ((procEntriesCode_sublist_eligible limite mascara ruta cs).trans
      (sftpEligible_sublist_all limite mascara ruta cs)).nodup h

/-- Witness for C4: the spec's local scenario (mask `*.log`, threshold 3
days; `a.log` four days old is deleted, `b.txt` is not) and a one-file
SFTP tree with duplicate-free paths. -/
theorem C4_witness :
    (maskOk (some "*.log") "a.log" = true ∧
      (-345600 : Int) < 0 - ((3 : Nat) : Int) * 86400) ∧
    ((eliminarArchivosLocales 0 "/t"
        (some [FSTree.file "a.log" (-345600), FSTree.file "b.txt" (-345600)]) 3
        (some "*.log")).1.map LocalEntry.path).Nodup ∧
    (procEntriesCode 0 none "/r" [SNode.file "f" (-1)]).1.Nodup := by
  refine ⟨?_, ?_, ?_⟩
  · exact C4_thm.1 0 "/t"
      (some [FSTree.file "a.log" (-345600), FSTree.file "b.txt" (-345600)]) 3
      (some "*.log") { path := "/t/a.log", name := "a.log", mtime := -345600 }
      (by simp [eliminarArchivosLocales, osWalkFiles, filesAt, walkDirs, localPred,
            maskOk, fnmatch, globMatch])
  · exact C4_thm.2.1 0 "/t"
      (some [FSTree.file "a.log" (-345600), FSTree.file "b.txt" (-345600)]) 3
      (some "*.log")
      (by simp [osWalkFiles, filesAt, walkDirs])
  · exact C4_thm.2.2.2 0 none "/r" [SNode.file "f" (-1)]
      (by simp [allSftpPaths, sftpName])

/-- C5 counterexample: on a directory-typed entry whose listing fails, the
source's type detection diverges from the attribute-typed design — the
code treats the directory as a file and reports no error, while the
design recurses into it and records the listing failure. -/
theorem C5_counterexample :
    procEntriesCode (-100) none "/r"
      [SNode.dir "d" 0 false [SNode.file "old" (-200000)]] = ([], 0) ∧
    procEntriesSpecDesign (-100) none "/r"
      [SNode.dir "d" 0 false [SNode.file "old" (-200000)]] = ([], 1) := by
  constructor <;> simp [procEntriesCode, procEntriesSpecDesign, sftpName, maskOk]

/-- C5 (amended): the SFTP engine determines entry type by attempting
`sftp.listdir` on the entry and catching the failure, recursing exactly
into the entries whose listing succeeds; on worlds where every directory
is listable this coincides with the design's recursion into
directory-typed entries. -/
theorem C5_thm (limite : Int) (mascara : Option String) (ruta : String)
    (cs : List SNode) (h : allListable cs = true) :
    procEntriesCode limite mascara ruta cs = procEntriesSpecDesign limite mascara ruta cs :=
  procEntriesCode_eq_specDesign limite mascara ruta cs h

/-- Witness for C5: on a fully listable tree the two traversals agree. -/
theorem C5_witness :
    procEntriesCode 0 none "/r" [SNode.dir "d" 1 true [SNode.file "f" (-1)]] =
      procEntriesSpecDesign 0 none "/r" [SNode.dir "d" 1 true [SNode.file "f" (-1)]] :=
  C5_thm 0 none "/r" [SNode.dir "d" 1 true [SNode.file "f" (-1)]]
    (by simp [allListable])

/-- C6 (confirmed): a connection whose authentication fails returns zero
removals and one error per configured rule, and the connections processed
after it contribute to the run exactly what they contribute on their own —
the failure never aborts the overall loop. -/
theorem C6_thm (now : Int) (c : Conexion) (rest : List Conexion)
    (htipo : c.tipo = "ssh") (hauth : c.authOk = false) :
    procesarConexion now c = (0, c.rutas.length) ∧
    runConexiones now (c :: rest) =
      ((runConexiones now rest).1, c.rutas.length + (runConexiones now rest).2) := by
  have hproc : procesarConexion now c = (0, c.rutas.length) := by
    simp [procesarConexion, htipo, eliminarArchivosSsh, hauth]
  exact ⟨hproc, by simp [runConexiones, hproc]⟩

/-- Witness for C6: an auth-failing SSH connection followed by a local
connection; the local connection still removes its one stale file. -/
theorem C6_witness :
    procesarConexion 0 conexionSshAuthFail = (0, 1) ∧
    runConexiones 0 [conexionSshAuthFail, conexionLocal] = (1, 1) := by
  have h := C6_thm 0 conexionSshAuthFail [conexionLocal] rfl rfl
  refine ⟨by simpa [conexionSshAuthFail] using h.1, ?_⟩
  rw [h.2]
  simp [conexionSshAuthFail, conexionLocal, reglaLocalVieja, runConexiones,
    procesarConexion, localRulesLoop, eliminarArchivosLocales, osWalkFiles,
    filesAt, walkDirs, localPred, maskOk]

/-- C7 (confirmed): over well-formed rules whose probe succeeds, the Shell
backend issues exactly, per rule and in order: the probe `ls <ruta>`, one
combined `find <ruta> -type f [-name '<mascara>'] -mtime +<dias> -print`,
and one `rm -f '<archivo>'` per parsed find-output line — each command
carrying the `sudo ` prefix exactly when the connection's flag is set. -/
theorem C7_thm (b : Bool) (es : List RuleEntry)
    (hp : ∀ e ∈ es, e.world.probeOk = true) :
    (eliminarArchivosSsh { tipo := "ssh", authOk := true, necesitaSudo := b,
                           rutas := es.map some }).commands =
      (es.map (fun e =>
        ((if b then "sudo " else "") ++ "ls " ++ e.cfg.ruta) ::
        (match e.cfg.mascara with
         | some m => (if b then "sudo " else "") ++ "find " ++ e.cfg.ruta ++
             " -type f -name " ++ sq ++ m ++ sq ++ " -mtime +" ++
             toString e.cfg.dias ++ " -print"
         | none => (if b then "sudo " else "") ++ "find " ++ e.cfg.ruta ++
             " -type f -mtime +" ++ toString e.cfg.dias ++ " -print") ::
        (parseFindOut e.world.findOut).map (fun a =>
          (if b then "sudo " else "") ++ "rm -f " ++ sq ++ a ++ sq))).flatten := by
  have hl := sshRulesLoop_map_some (if b then "sudo " else "") es
  have hc : (eliminarArchivosSsh { tipo := "ssh", authOk := true, necesitaSudo := b,
                                   rutas := es.map some }).commands =
      (sshRulesLoop (if b then "sudo " else "") (es.map some)).2.2.1 := by
    simp [eliminarArchivosSsh, hl.2]
  rw [hc, hl.1]
  exact congrArg List.flatten
    (List.map_congr_left (fun e he => sshRule_cmds _ e (hp e he)))

/-- Witness for C7: one sudo-flagged rule with a 7-day threshold and one
find hit produces exactly the three expected commands. -/
theorem C7_witness :
    (eliminarArchivosSsh { tipo := "ssh", authOk := true, necesitaSudo := true,
                           rutas := [reglaSshFind].map some }).commands =
      ["sudo ls /var/log",
       "sudo find /var/log -type f -mtime +7 -print",
       "sudo rm -f \x27/var/log/a.log\x27"] := by
  have h := C7_thm true [reglaSshFind] (by simp [reglaSshFind])
  rw [h]
  decide

set_option maxHeartbeats 1600000 in
/-- C8 counterexample: a malformed FTP listing line (fewer than nine
whitespace fields) is skipped without recording any error — the run ends
with zero errors where the claim requires one recorded parse error. -/
theorem C8_counterexample :
    procFtpDir [("", ["garbage line"])] [] 0 none 1 "" = (0, 0) := by
  have hml : (pySplitWs "garbage line").length < 9 := by decide
  simp [procFtpDir, procFtpLines, hml]

set_option maxHeartbeats 1600000 in
/-- C8 (amended): a malformed line in an FTP listing is skipped silently —
processing the listing with the malformed line gives exactly the result of
processing the remaining lines: no error is recorded, no entry is deleted
for it, and the traversal of the rest continues (no abort). -/
theorem C8_thm (listings : List (String × List String)) (mdtm : List (String × Int))
    (limite : Int) (mascara : Option String) (fuel : Nat) (path : String)
    (m : String) (rest : List String) (h : (pySplitWs m).length < 9) :
    procFtpLines listings mdtm limite mascara fuel path (m :: rest) =
      procFtpLines listings mdtm limite mascara fuel path rest := by
  simp [procFtpLines, h]

/-- Witness for C8: a one-character line is malformed and skipped. -/
theorem C8_witness :
    procFtpLines [] [] 0 none 1 "" ["x"] = procFtpLines [] [] 0 none 1 "" [] :=
  C8_thm [] [] 0 none 1 "" "x" [] (by decide)

end Limpieza
